import Mathlib

/-!
Verification development for the topstepapi trading toolkit.

The definitions below are a shallow embedding of the Python sources:
the OCO bracket-order manager (src/simpleoco.py, class SimpleOCOManager),
the resilient market-data hub wrapper (src/topstepapi/marketdata.py,
class MarketDataClient) and the user-events hub wrapper
(src/topstepapi/realtime.py, class RealTimeClient).

External broker interactions (REST order placement, cancellation, bar
history, SignalR sends) are modelled as oracle parameters: each call site
receives the value the broker or transport would have returned there.
Side effects towards the broker are collected in explicit traces.
-/

/-! ## Python runtime values

Event payloads delivered to the handlers are arbitrary Python objects.
We model the shapes that occur (None, int, str, list, dict).  Python
floats and bools are not needed by any claim and are omitted.  The str()
rendering of aggregate values is abstracted to a fixed placeholder; it is
only ever applied to the id/status/customTag fields when logging.
-/

inductive PyVal where
  | none
  | int (n : Int)
  | str (s : String)
  | list (items : List PyVal)
  | dict (fields : List (String × PyVal))

inductive PyErr where
  | attributeError
  | typeError
  deriving DecidableEq

/-- Python str() of a value, as used by str(order_data.get("id")) and by
f-string interpolation; the rendering of lists and dicts is abstracted. -/
def pyStr : PyVal → String
  | PyVal.none => "None"
  | PyVal.int n => toString n
  | PyVal.str s => s
  | PyVal.list _ => "<list>"
  | PyVal.dict _ => "<dict>"

/-- Python truthiness of a value. -/
def pyTruthy : PyVal → Bool
  | PyVal.none => false
  | PyVal.int n => n != 0
  | PyVal.str s => s != ""
  | PyVal.list l => !l.isEmpty
  | PyVal.dict f => !f.isEmpty

/-- Python comparison v > 0: defined for ints, a TypeError for None,
strings, lists and dicts. -/
def pyGtZero : PyVal → Except PyErr Bool
  | PyVal.int n => Except.ok (0 < n)
  | _ => Except.error PyErr.typeError

def listStartsWith : List Char → List Char → Bool
  | [], _ => true
  | _ :: _, [] => false
  | a :: as, b :: bs => a = b && listStartsWith as bs

def listHasSeq (n : List Char) : List Char → Bool
  | [] => listStartsWith n []
  | b :: bs => listStartsWith n (b :: bs) || listHasSeq n bs

/-- Python substring test: needle in hay for strings. -/
def strHasSub (needle hay : String) : Bool :=
  listHasSeq needle.data hay.data

/-- Python membership test needle in v where needle is a string:
substring test on str, element test on list, key test on dict,
TypeError on None and int. -/
def pyInStr (needle : String) : PyVal → Except PyErr Bool
  | PyVal.str s => Except.ok (strHasSub needle s)
  | PyVal.list l => Except.ok (l.any (fun v => pyStr v == needle && (match v with | PyVal.str _ => true | _ => false)))
  | PyVal.dict f => Except.ok (f.any (fun p => p.1 == needle))
  | _ => Except.error PyErr.typeError

/-! ## Python dict as an association list

Python dicts preserve insertion order; assignment to an existing key
replaces the value in place, assignment to a new key appends, and
pop removes the key.  All dicts built by the embedded code have unique
keys, so removal is modelled as dropping every entry with the key.
-/

def dictGet {α β : Type} [DecidableEq α] : List (α × β) → α → Option β
  | [], _ => none
  | (k', v) :: t, k => if k' = k then some v else dictGet t k

def dictInsert {α β : Type} [DecidableEq α] : List (α × β) → α → β → List (α × β)
  | [], k, v => [(k, v)]
  | (k', v') :: t, k, v => if k' = k then (k, v) :: t else (k', v') :: dictInsert t k v

def dictRemove {α β : Type} [DecidableEq α] : List (α × β) → α → List (α × β)
  | [], _ => []
  | (k', v') :: t, k => if k' = k then dictRemove t k else (k', v') :: dictRemove t k

/-! ## SimpleOCOManager data model (src/simpleoco.py)

oco_pairs maps an entry order id to the bracket record; oco_order_lookup
maps str(leg order id) to the lookup record.  Order ids assigned by the
broker are modelled as naturals; the str() conversions applied by the
Python code are kept explicit.  Timestamps are abstracted: created_time
is dropped and completed_time is kept as a presence flag.
-/

structure OCOData where
  entry_order_id : Nat
  stop_order_id : Nat
  target_order_id : Nat
  contract_id : String
  market_price : ℚ
  stop_price : ℚ
  target_price : ℚ
  status : String
  completed_time : Bool
  deriving DecidableEq

structure LookupInfo where
  entry_id : Nat
  legType : String
  partner_id : String
  deriving DecidableEq

/-- One event appended to self.order_events (timestamp and raw payload
are abstracted away). -/
structure OrderEvent where
  order_id : String
  status : String
  custom_tag : PyVal
  filled_size : PyVal

structure OCOState where
  oco_pairs : List (Nat × OCOData)
  oco_order_lookup : List (String × LookupInfo)
  order_events : List OrderEvent

def emptyOCOState : OCOState := ⟨[], [], []⟩

/-- A cancel_order invocation recorded in the trace: the entry id of the
bracket that triggered it, the partner order id passed to the broker and
the result the broker oracle returned. -/
structure CancelCall where
  entry_id : Nat
  partner_id : String
  ok : Bool
  deriving DecidableEq

/-- decode_order_status: status_map.get(status_code, f-string default).
Python dict .get raises TypeError on unhashable keys (lists, dicts). -/
def decode_order_status : PyVal → Except PyErr String
  | PyVal.list _ => Except.error PyErr.typeError
  | PyVal.dict _ => Except.error PyErr.typeError
  | PyVal.int 1 => Except.ok "New"
  | PyVal.int 2 => Except.ok "Working"
  | PyVal.int 3 => Except.ok "Filled"
  | PyVal.int 4 => Except.ok "PartiallyFilled"
  | PyVal.int 5 => Except.ok "Cancelled"
  | PyVal.int 6 => Except.ok "Rejected"
  | PyVal.int 7 => Except.ok "Expired"
  | PyVal.int 8 => Except.ok "Modified"
  | v => Except.ok ("Unknown(" ++ pyStr v ++ ")")

/-- Payload normalization at the top of on_order_update: a nonempty list
unwraps its head (further unwrapping a data field if the head is a dict
containing one); a dict unwraps its data field if present. -/
def pyNormalizeOrderData (data : PyVal) : PyVal :=
  match data with
  | PyVal.list (x :: _) =>
    match x with
    | PyVal.dict fs =>
      match dictGet fs "data" with
      | some v => v
      | none => x
    | _ => x
  | PyVal.dict fs =>
    match dictGet fs "data" with
    | some v => v
    | none => data
  | _ => data

/-- handle_oco_fill_by_lookup: if the bracket for entry_id is present and
active, cancel the partner leg; on a successful cancel transition the
status to stop_hit or target_hit and set completed_time.  The cancelOk
argument is the broker oracle result for the (at most one) cancel_order
call made here; the calls actually made are returned as a trace. -/
def handle_oco_fill_by_lookup (st : OCOState) (info : LookupInfo) (cancelOk : Bool) :
    OCOState × List CancelCall :=
  match dictGet st.oco_pairs info.entry_id with
  | none => (st, [])
  | some d =>
    if d.status ≠ "active" then (st, [])
    else if info.legType = "stop" then
      if cancelOk then
        let d2 : OCOData := { d with status := "stop_hit", completed_time := true }
        ({ st with oco_pairs := dictInsert st.oco_pairs info.entry_id d2 },
         [⟨info.entry_id, info.partner_id, true⟩])
      else (st, [⟨info.entry_id, info.partner_id, false⟩])
    else if info.legType = "target" then
      if cancelOk then
        let d2 : OCOData := { d with status := "target_hit", completed_time := true }
        ({ st with oco_pairs := dictInsert st.oco_pairs info.entry_id d2 },
         [⟨info.entry_id, info.partner_id, true⟩])
      else (st, [⟨info.entry_id, info.partner_id, false⟩])
    else (st, [])

structure UpdateResult where
  state : OCOState
  calls : List CancelCall
  err : Option PyErr

/-- The order_id extracted by on_order_update: str(order_data.get("id")). -/
def rawOrderId (fs : List (String × PyVal)) : String :=
  pyStr ((dictGet fs "id").getD PyVal.none)

/-- order_data.get("customTag", ""). -/
def rawCustomTag (fs : List (String × PyVal)) : PyVal :=
  (dictGet fs "customTag").getD (PyVal.str "")

/-- order_data.get("fillVolume", 0). -/
def rawFilledSize (fs : List (String × PyVal)) : PyVal :=
  (dictGet fs "fillVolume").getD (PyVal.int 0)

/-- The append to self.order_events performed before the OCO logic runs. -/
def logEvent (st : OCOState) (fs : List (String × PyVal)) (status : String) : OCOState :=
  { st with order_events :=
      st.order_events ++ [⟨rawOrderId fs, status, rawCustomTag fs, rawFilledSize fs⟩] }

/-- on_order_update: normalize the payload, extract the fields, log the
event, then run the OCO logic.  A payload that does not normalize to a
dict raises AttributeError at order_data.get.  Decoding the status raises
before the event is logged; comparing filled_size > 0 raises after.  The
tag-fallback branch calls self.handle_oco_fill, a method that is not
defined anywhere on SimpleOCOManager, so reaching it raises
AttributeError.  The err field records the exception propagating out of
the handler, state the mutations performed before the raise. -/
def on_order_update (st : OCOState) (data : PyVal) (cancelOk : Bool) : UpdateResult :=
  match pyNormalizeOrderData data with
  | PyVal.dict fs =>
    match decode_order_status ((dictGet fs "status").getD PyVal.none) with
    | Except.error e => ⟨st, [], some e⟩
    | Except.ok status =>
      match pyGtZero (rawFilledSize fs) with
      | Except.error e => ⟨logEvent st fs status, [], some e⟩
      | Except.ok pos =>
        match dictGet st.oco_order_lookup (rawOrderId fs) with
        | some info =>
          if pos then
            ⟨(handle_oco_fill_by_lookup (logEvent st fs status) info cancelOk).1,
             (handle_oco_fill_by_lookup (logEvent st fs status) info cancelOk).2, none⟩
          else ⟨logEvent st fs status, [], none⟩
        | none =>
          if pos then
            if pyTruthy (rawCustomTag fs) then
              match pyInStr "OCO_STOP" (rawCustomTag fs) with
              | Except.error e => ⟨logEvent st fs status, [], some e⟩
              | Except.ok true => ⟨logEvent st fs status, [], some PyErr.attributeError⟩
              | Except.ok false =>
                match pyInStr "OCO_TARGET" (rawCustomTag fs) with
                | Except.error e => ⟨logEvent st fs status, [], some e⟩
                | Except.ok true => ⟨logEvent st fs status, [], some PyErr.attributeError⟩
                | Except.ok false => ⟨logEvent st fs status, [], none⟩
            else ⟨logEvent st fs status, [], none⟩
          else ⟨logEvent st fs status, [], none⟩
  | _ => ⟨st, [], some PyErr.attributeError⟩

/-- Deliver a list of order-update events; each event carries the broker
oracle answer for the cancel call made (if any) while processing it. -/
def processEvents (st : OCOState) : List (PyVal × Bool) → OCOState × List CancelCall
  | [] => (st, [])
  | (d, ok) :: t =>
    let r := on_order_update st d ok
    let rest := processEvents r.state t
    (rest.1, r.calls ++ rest.2)

/-- One order placement sent to the broker in create_oco_order. -/
structure Placement where
  otype : Nat
  side : Nat
  size : Nat
  stop_price : Option ℚ
  limit_price : Option ℚ
  linked_order_id : Option Nat
  custom_tag : String
  deriving DecidableEq

structure CreateResult where
  state : OCOState
  result : Bool
  placements : List Placement

/-- create_oco_order with broker oracles: priceRes is what
get_current_price resolved (None both for an empty bar list and for a
raised exception), and entryRes/stopRes/targetRes are the order ids the
three place_order calls would return.  Python tests each id and the price
for truthiness, so a 0 id or a 0.0 price counts as a failure.  The
returned result is False exactly when the Python function returns None;
placements lists the orders actually sent before returning. -/
def create_oco_order (st : OCOState) (stop_distance target_distance : ℚ)
    (contract_id : String) (side size : Nat) (priceRes : Option ℚ)
    (entryRes stopRes targetRes : Option Nat) : CreateResult :=
  match priceRes with
  | none => ⟨st, false, []⟩
  | some market_price =>
    if market_price = 0 then ⟨st, false, []⟩
    else
      let stop_price := if side = 0 then market_price - stop_distance else market_price + stop_distance
      let target_price := if side = 0 then market_price + target_distance else market_price - target_distance
      let bracket_side := if side = 0 then 1 else 0
      let entryP : Placement := ⟨2, side, size, none, none, none, "OCO_ENTRY"⟩
      match entryRes with
      | none => ⟨st, false, [entryP]⟩
      | some entry_order_id =>
        if entry_order_id = 0 then ⟨st, false, [entryP]⟩
        else
          let stopP : Placement :=
            ⟨4, bracket_side, size, some stop_price, none, some entry_order_id, "OCO_STOP"⟩
          match stopRes with
          | none => ⟨st, false, [entryP, stopP]⟩
          | some stop_order_id =>
            if stop_order_id = 0 then ⟨st, false, [entryP, stopP]⟩
            else
              let targetP : Placement :=
                ⟨1, bracket_side, size, none, some target_price, some entry_order_id, "OCO_TARGET"⟩
              match targetRes with
              | none => ⟨st, false, [entryP, stopP, targetP]⟩
              | some target_order_id =>
                if target_order_id = 0 then ⟨st, false, [entryP, stopP, targetP]⟩
                else
                  let d : OCOData :=
                    ⟨entry_order_id, stop_order_id, target_order_id, contract_id,
                     market_price, stop_price, target_price, "active", false⟩
                  ⟨⟨dictInsert st.oco_pairs entry_order_id d,
                    dictInsert
                      (dictInsert st.oco_order_lookup (toString stop_order_id)
                        ⟨entry_order_id, "stop", toString target_order_id⟩)
                      (toString target_order_id)
                      ⟨entry_order_id, "target", toString stop_order_id⟩,
                    st.order_events⟩,
                   true, [entryP, stopP, targetP]⟩

/-- The loop in cleanup_completed_ocos that pops the two lookup entries
of every bracket whose status is not active. -/
def pruneLookup : List (Nat × OCOData) → List (String × LookupInfo) → List (String × LookupInfo)
  | [], lk => lk
  | p :: t, lk =>
    pruneLookup t
      (if p.2.status = "active" then lk
       else dictRemove (dictRemove lk (toString p.2.stop_order_id)) (toString p.2.target_order_id))

/-- cleanup_completed_ocos: drop the lookup entries of every completed
bracket, then delete the completed brackets themselves (the pair dict has
unique keys, so the deletion loop is a filter). -/
def cleanup_completed_ocos (st : OCOState) : OCOState :=
  ⟨st.oco_pairs.filter (fun p => decide (p.2.status = "active")),
   pruneLookup st.oco_pairs st.oco_order_lookup,
   st.order_events⟩

/-- cleanup_orders cancels tagged open orders at the broker (pure side
effect, no local structure is touched) and then runs
cleanup_completed_ocos; its effect on the local state is exactly that. -/
def cleanup_orders (st : OCOState) : OCOState :=
  cleanup_completed_ocos st

/-! ## MarketDataClient (src/topstepapi/marketdata.py)

The SubscriptionSet is the triple of Python sets _subscribed_quotes,
_subscribed_trades and _subscribed_depth, modelled as duplicate-free
lists; the iteration order of a Python set within one channel is
unspecified, and the list order stands in for it (only the relative
order of the three channels is fixed by the code).  Wire sends go through _send, which returns a boolean; the
sendOk oracle argument is the value _send would return at that call.
subscribe adds the key only when the send succeeded, and unsubscribe
likewise discards the key only when the send succeeded.
-/

inductive WireCmd where
  | subQuotes (contract_id : String)
  | subTrades (contract_id : String)
  | subDepth (contract_id : String)
  deriving DecidableEq

structure MDState where
  quotes : List String
  trades : List String
  depth : List String
  deriving DecidableEq

def initMD : MDState := ⟨[], [], []⟩

def setAdd (l : List String) (x : String) : List String :=
  if x ∈ l then l else l ++ [x]

def setDiscard (l : List String) (x : String) : List String :=
  l.filter (fun y => decide (y ≠ x))

def subscribe_contract_quotes (st : MDState) (cid : String) (sendOk : Bool) : MDState × Bool :=
  if sendOk then ({ st with quotes := setAdd st.quotes cid }, true) else (st, false)

def subscribe_contract_trades (st : MDState) (cid : String) (sendOk : Bool) : MDState × Bool :=
  if sendOk then ({ st with trades := setAdd st.trades cid }, true) else (st, false)

def subscribe_contract_market_depth (st : MDState) (cid : String) (sendOk : Bool) : MDState × Bool :=
  if sendOk then ({ st with depth := setAdd st.depth cid }, true) else (st, false)

def unsubscribe_contract_quotes (st : MDState) (cid : String) (sendOk : Bool) : MDState × Bool :=
  if sendOk then ({ st with quotes := setDiscard st.quotes cid }, true) else (st, false)

def unsubscribe_contract_trades (st : MDState) (cid : String) (sendOk : Bool) : MDState × Bool :=
  if sendOk then ({ st with trades := setDiscard st.trades cid }, true) else (st, false)

def unsubscribe_contract_market_depth (st : MDState) (cid : String) (sendOk : Bool) : MDState × Bool :=
  if sendOk then ({ st with depth := setDiscard st.depth cid }, true) else (st, false)

/-- The wire subscribe commands issued by _resubscribe_all: one per
tracked entry, quotes first, then trades, then depth. -/
def resubscribe_all (st : MDState) : List WireCmd :=
  st.quotes.map WireCmd.subQuotes ++ st.trades.map WireCmd.subTrades
    ++ st.depth.map WireCmd.subDepth

/-- The wire subscribe commands issued by _on_open: _resubscribe_all is
invoked only when some subscription set is nonempty. -/
def onOpenCommands (st : MDState) : List WireCmd :=
  if st.quotes.isEmpty && st.trades.isEmpty && st.depth.isEmpty then []
  else resubscribe_all st

/-- One subscribe/unsubscribe call on the client, together with the
result the underlying _send would report for it. -/
inductive MDOp where
  | subQ (cid : String) (sendOk : Bool)
  | subT (cid : String) (sendOk : Bool)
  | subD (cid : String) (sendOk : Bool)
  | unsubQ (cid : String) (sendOk : Bool)
  | unsubT (cid : String) (sendOk : Bool)
  | unsubD (cid : String) (sendOk : Bool)

def applyMDOp (st : MDState) : MDOp → MDState
  | MDOp.subQ cid ok => (subscribe_contract_quotes st cid ok).1
  | MDOp.subT cid ok => (subscribe_contract_trades st cid ok).1
  | MDOp.subD cid ok => (subscribe_contract_market_depth st cid ok).1
  | MDOp.unsubQ cid ok => (unsubscribe_contract_quotes st cid ok).1
  | MDOp.unsubT cid ok => (unsubscribe_contract_trades st cid ok).1
  | MDOp.unsubD cid ok => (unsubscribe_contract_market_depth st cid ok).1

def applyMDOps (st : MDState) : List MDOp → MDState
  | [] => st
  | op :: t => applyMDOps (applyMDOp st op) t

/-! ## RealTimeClient subscription state (src/topstepapi/realtime.py)

Each subscribe/unsubscribe wraps connection.send in try/except; when the
send raises, the statement mutating the tracked set is skipped.  The
sendRaises oracle argument tells whether the send raised at that call.
-/

structure RTState where
  accounts : Bool
  orders : List Nat
  positions : List Nat
  tradesAccounts : List Nat
  deriving DecidableEq

def rtSetAdd (l : List Nat) (x : Nat) : List Nat :=
  if x ∈ l then l else l ++ [x]

def rtSetDiscard (l : List Nat) (x : Nat) : List Nat :=
  l.filter (fun y => decide (y ≠ x))

def rt_subscribe_orders (st : RTState) (aid : Nat) (sendRaises : Bool) : RTState :=
  if sendRaises then st else { st with orders := rtSetAdd st.orders aid }

def rt_unsubscribe_orders (st : RTState) (aid : Nat) (sendRaises : Bool) : RTState :=
  if sendRaises then st else { st with orders := rtSetDiscard st.orders aid }

def rt_unsubscribe_positions (st : RTState) (aid : Nat) (sendRaises : Bool) : RTState :=
  if sendRaises then st else { st with positions := rtSetDiscard st.positions aid }

def rt_unsubscribe_trades (st : RTState) (aid : Nat) (sendRaises : Bool) : RTState :=
  if sendRaises then st else { st with tradesAccounts := rtSetDiscard st.tradesAccounts aid }

/-! ## Reconnect backoff (src/topstepapi/marketdata.py, _reconnect_loop)

The loop keeps a 0-based attempt counter; before attempt number
attempt it sleeps backoff[min(attempt, len(backoff) - 1)] seconds (a
zero delay sleeps not at all).  When the reconnect was scheduled with
immediate=True a 0 is prepended to the configured sequence.  The delay
trace of a run whose first n attempts all fail is collected below.
-/

def DEFAULT_BACKOFF : List Nat := [2, 5, 10, 30]

def backoffDelay (backoff : List Nat) (attempt : Nat) : Nat :=
  backoff.getD (min attempt (backoff.length - 1)) 0

def reconnectDelaysFrom (backoff : List Nat) : Nat → Nat → List Nat
  | _, 0 => []
  | attempt, n + 1 => backoffDelay backoff attempt :: reconnectDelaysFrom backoff (attempt + 1) n

/-- Delays slept before each of the first n (all failing) reconnect
attempts of one _reconnect_loop run. -/
def reconnectDelays (backoff : List Nat) (immediate : Bool) (n : Nat) : List Nat :=
  reconnectDelaysFrom (if immediate then 0 :: backoff else backoff) 0 n

/-! ## Invariant, reachability and witness definitions

The well-formedness predicate and reachable-state relation used by the
lookup-index invariant, the cancel-call counter, and the concrete
states used by witness theorems. -/

/-- Number of successful cancel calls attributed to the bracket with the
given entry id. -/
def countSuccess (eid : Nat) (calls : List CancelCall) : Nat :=
  (calls.filter (fun c => decide (c.entry_id = eid) && c.ok)).length

/-- The two lookup entries a bracket must own: stop and target legs point
back at the entry id and at each other, under distinct keys. -/
def pairWF (st : OCOState) (eid : Nat) (d : OCOData) : Prop :=
  dictGet st.oco_order_lookup (toString d.stop_order_id) =
      some ⟨eid, "stop", toString d.target_order_id⟩
  ∧ dictGet st.oco_order_lookup (toString d.target_order_id) =
      some ⟨eid, "target", toString d.stop_order_id⟩
  ∧ toString d.stop_order_id ≠ toString d.target_order_id

/-- Well-formedness of the OCO manager state: the pair table has unique
keys, every tracked bracket owns its two lookup entries, and every lookup
entry belongs to a tracked bracket as one of its two legs. -/
def stateWF (st : OCOState) : Prop :=
  (st.oco_pairs.map Prod.fst).Nodup
  ∧ (∀ eid d, dictGet st.oco_pairs eid = some d → pairWF st eid d)
  ∧ (∀ k info, dictGet st.oco_order_lookup k = some info →
      ∃ d, dictGet st.oco_pairs info.entry_id = some d
        ∧ ((k = toString d.stop_order_id ∧ info.legType = "stop"
              ∧ info.partner_id = toString d.target_order_id)
          ∨ (k = toString d.target_order_id ∧ info.legType = "target"
              ∧ info.partner_id = toString d.stop_order_id)))

/-- States of the OCO manager reachable from the fresh manager by any
sequence of create_oco_order, on_order_update, cleanup_orders and
cleanup_completed_ocos calls, under arbitrary broker oracle answers.
The create step carries the freshness guarantee the broker provides:
newly assigned order ids do not collide with ids already tracked. -/
inductive ReachableOCO : OCOState → Prop where
  | init : ReachableOCO emptyOCOState
  | create (st : OCOState) (sd td : ℚ) (cid : String) (side size : Nat)
      (priceRes : Option ℚ) (entryRes stopRes targetRes : Option Nat)
      (hst : ReachableOCO st)
      (hfresh : ∀ p eid sid tid, priceRes = some p → entryRes = some eid →
          stopRes = some sid → targetRes = some tid →
          dictGet st.oco_pairs eid = none
          ∧ dictGet st.oco_order_lookup (toString sid) = none
          ∧ dictGet st.oco_order_lookup (toString tid) = none
          ∧ toString sid ≠ toString tid) :
      ReachableOCO (create_oco_order st sd td cid side size priceRes entryRes stopRes targetRes).state
  | update (st : OCOState) (data : PyVal) (ok : Bool) (hst : ReachableOCO st) :
      ReachableOCO (on_order_update st data ok).state
  | cleanupCompleted (st : OCOState) (hst : ReachableOCO st) :
      ReachableOCO (cleanup_completed_ocos st)
  | cleanupOrd (st : OCOState) (hst : ReachableOCO st) :
      ReachableOCO (cleanup_orders st)

/-- A concrete bracket already in stop_hit state, for exercising the
duplicate-fill part of the at-most-one-cancel theorem. -/
def C1wData : OCOData := ⟨1, 2, 3, "C", 100, 94, 106, "stop_hit", true⟩

def C1wState : OCOState :=
  ⟨[(1, C1wData)], [("2", ⟨1, "stop", "3"⟩), ("3", ⟨1, "target", "2"⟩)], []⟩

def C1wEvent : PyVal := PyVal.dict [("id", PyVal.int 2), ("fillVolume", PyVal.int 1)]

/-- State after one successful bracket creation (entry 1, stop 2,
target 3) at price 100. -/
def C5cState1 : OCOState :=
  (create_oco_order emptyOCOState 6 6 "C" 0 1 (some 100) (some 1) (some 2) (some 3)).state

/-- State after the stop leg (order 2) fills and the sibling cancel
succeeds: the bracket is completed but no cleanup has run yet. -/
def C5cState2 : OCOState :=
  (on_order_update C5cState1
    (PyVal.dict [("id", PyVal.int 2), ("fillVolume", PyVal.int 1)]) true).state

def C5cData : OCOData := ⟨1, 2, 3, "C", 100, 100 - 6, 100 + 6, "stop_hit", true⟩

/-- State after one successful bracket creation (entry 4, stop 5,
target 6), used to witness the lookup invariant at a reachable state. -/
def C5wState : OCOState :=
  (create_oco_order emptyOCOState 6 6 "C" 0 1 (some 100) (some 4) (some 5) (some 6)).state

def C5wData : OCOData := ⟨4, 5, 6, "C", 100, 100 - 6, 100 + 6, "active", false⟩

/-! ## Association list lemmas -/

theorem dictGet_insert {α β : Type} [DecidableEq α] (l : List (α × β)) (k k2 : α) (v : β) :
    dictGet (dictInsert l k v) k2 = if k = k2 then some v else dictGet l k2 := by
  induction l with
  | nil => by_cases h : k = k2 <;> simp [dictInsert, dictGet, h]
  | cons hd t ih =>
    obtain ⟨k', v'⟩ := hd
    by_cases hk : k' = k
    · subst hk
      by_cases h2 : k' = k2 <;> simp [dictInsert, dictGet, h2]
    · by_cases h2 : k' = k2
      · subst h2
        have hne : k ≠ k' := fun e => hk e.symm
        simp [dictInsert, dictGet, hk, hne]
      · simp [dictInsert, dictGet, hk, h2, ih]

theorem dictGet_remove {α β : Type} [DecidableEq α] (l : List (α × β)) (k k2 : α) :
    dictGet (dictRemove l k) k2 = if k2 = k then none else dictGet l k2 := by
  induction l with
  | nil => by_cases h : k2 = k <;> simp [dictRemove, dictGet, h]
  | cons hd t ih =>
    obtain ⟨k', v'⟩ := hd
    by_cases hk : k' = k
    · subst hk
      by_cases h2 : k2 = k'
      · subst h2
        simp [dictRemove, ih]
      · have h3 : ¬ k' = k2 := fun e => h2 e.symm
        simp [dictRemove, dictGet, h2, h3, ih]
    · by_cases h2 : k' = k2
      · subst h2
        simp [dictRemove, dictGet, hk]
      · simp [dictRemove, dictGet, hk, h2, ih]

theorem dictGet_some_mem {α β : Type} [DecidableEq α] (l : List (α × β)) (k : α) (v : β)
    (h : dictGet l k = some v) : (k, v) ∈ l := by
  induction l with
  | nil => simp [dictGet] at h
  | cons hd t ih =>
    obtain ⟨k', v'⟩ := hd
    simp only [dictGet] at h
    split at h
    · rename_i heq
      injection h with hv
      subst heq
      subst hv
      exact List.mem_cons_self _ _
    · exact List.mem_cons_of_mem _ (ih h)

theorem dictGet_some_mem_keys {α β : Type} [DecidableEq α] (l : List (α × β)) (k : α) (v : β)
    (h : dictGet l k = some v) : k ∈ l.map Prod.fst :=
  List.mem_map.mpr ⟨(k, v), dictGet_some_mem l k v h, rfl⟩

theorem dictGet_none_of_not_mem_keys {α β : Type} [DecidableEq α] (l : List (α × β)) (k : α)
    (h : k ∉ l.map Prod.fst) : dictGet l k = none := by
  induction l with
  | nil => simp [dictGet]
  | cons hd t ih =>
    obtain ⟨k', v'⟩ := hd
    simp only [List.map, List.mem_cons, not_or] at h
    have hk : k' ≠ k := fun e => h.1 e.symm
    simp [dictGet, hk, ih h.2]

theorem dictGet_of_mem_nodup {α β : Type} [DecidableEq α] (l : List (α × β)) (k : α) (v : β)
    (hnd : (l.map Prod.fst).Nodup) (h : (k, v) ∈ l) : dictGet l k = some v := by
  induction l with
  | nil => simp at h
  | cons hd t ih =>
    obtain ⟨k', v'⟩ := hd
    simp only [List.map, List.nodup_cons] at hnd
    rcases List.mem_cons.mp h with h1 | h1
    · injection h1 with e1 e2
      subst e1
      subst e2
      simp [dictGet]
    · have hk : k' ≠ k := by
        intro e
        subst e
        exact hnd.1 (List.mem_map.mpr ⟨(k', v), h1, rfl⟩)
      simp [dictGet, hk, ih hnd.2 h1]

theorem dictGet_filter_some {α β : Type} [DecidableEq α] (l : List (α × β))
    (p : α × β → Bool) (k : α) (v : β)
    (h : dictGet (l.filter p) k = some v) : p (k, v) = true :=
  (List.mem_filter.mp (dictGet_some_mem _ _ _ h)).2

theorem dictGet_filter_nodup {α β : Type} [DecidableEq α] (l : List (α × β))
    (p : α × β → Bool) (k : α) (v : β)
    (hnd : (l.map Prod.fst).Nodup) (h : dictGet (l.filter p) k = some v) :
    dictGet l k = some v :=
  dictGet_of_mem_nodup l k v hnd (List.mem_of_mem_filter (dictGet_some_mem _ _ _ h))

theorem dictGet_filter_of_get {α β : Type} [DecidableEq α] (l : List (α × β))
    (p : α × β → Bool) (k : α) (v : β)
    (h : dictGet l k = some v) (hp : p (k, v) = true) :
    dictGet (l.filter p) k = some v := by
  induction l with
  | nil => simp [dictGet] at h
  | cons hd t ih =>
    obtain ⟨k', v'⟩ := hd
    simp only [dictGet] at h
    split at h
    · rename_i heq
      injection h with hv
      subst heq
      subst hv
      simp [List.filter_cons, hp, dictGet]
    · rename_i hk
      by_cases hq : p (k', v') <;> simp [List.filter_cons, hq, dictGet, hk, ih h]

theorem dictInsert_keys {α β : Type} [DecidableEq α] (l : List (α × β)) (k : α) (v : β) :
    (dictInsert l k v).map Prod.fst =
      if k ∈ l.map Prod.fst then l.map Prod.fst else l.map Prod.fst ++ [k] := by
  induction l with
  | nil => simp [dictInsert]
  | cons hd t ih =>
    obtain ⟨k', v'⟩ := hd
    by_cases hk : k' = k
    · subst hk
      simp [dictInsert]
    · have hk2 : k ≠ k' := fun e => hk e.symm
      simp only [dictInsert, if_neg hk, List.map_cons, List.mem_cons, ih]
      by_cases hm : k ∈ t.map Prod.fst <;> simp [hm, hk2]

theorem dictInsert_keys_nodup {α β : Type} [DecidableEq α] (l : List (α × β)) (k : α) (v : β)
    (hnd : (l.map Prod.fst).Nodup) : ((dictInsert l k v).map Prod.fst).Nodup := by
  rw [dictInsert_keys]
  by_cases hm : k ∈ l.map Prod.fst
  · simpa [hm]
  · simp only [hm, if_false]
    refine List.Nodup.append hnd (List.nodup_singleton k) ?_
    intro a ha hb
    rw [List.mem_singleton] at hb
    exact hm (hb ▸ ha)

/-! ## pruneLookup lemmas -/

theorem prune_get_none (ps : List (Nat × OCOData)) (lk : List (String × LookupInfo)) (k : String)
    (h : dictGet lk k = none) : dictGet (pruneLookup ps lk) k = none := by
  induction ps generalizing lk with
  | nil => simpa [pruneLookup] using h
  | cons p t ih =>
    simp only [pruneLookup]
    apply ih
    by_cases hs : p.2.status = "active"
    · simpa [hs] using h
    · simp [hs, dictGet_remove]
      intro h1 h2
      simpa using h

theorem prune_get_some (ps : List (Nat × OCOData)) (lk : List (String × LookupInfo))
    (k : String) (v : LookupInfo)
    (h : dictGet (pruneLookup ps lk) k = some v) : dictGet lk k = some v := by
  induction ps generalizing lk with
  | nil => simpa [pruneLookup] using h
  | cons p t ih =>
    simp only [pruneLookup] at h
    have h2 := ih _ h
    by_cases hs : p.2.status = "active"
    · simpa [hs] using h2
    · simp only [hs, if_false, dictGet_remove] at h2
      split at h2
      · exact absurd h2 (by simp)
      · split at h2
        · exact absurd h2 (by simp)
        · exact h2

theorem prune_removed (ps : List (Nat × OCOData)) (lk : List (String × LookupInfo))
    (k : String) (p : Nat × OCOData)
    (hmem : p ∈ ps) (hs : ¬ p.2.status = "active")
    (hk : k = toString p.2.stop_order_id ∨ k = toString p.2.target_order_id) :
    dictGet (pruneLookup ps lk) k = none := by
  induction ps generalizing lk with
  | nil => simp at hmem
  | cons q t ih =>
    rcases List.mem_cons.mp hmem with he | hm
    · subst he
      simp only [pruneLookup, hs, if_false]
      apply prune_get_none
      rcases hk with hk | hk
      · subst hk
        by_cases ht : toString p.2.stop_order_id = toString p.2.target_order_id <;>
          simp [dictGet_remove, ht]
      · subst hk
        simp [dictGet_remove]
    · simp only [pruneLookup]
      exact ih _ hm

theorem prune_kept (ps : List (Nat × OCOData)) (lk : List (String × LookupInfo)) (k : String)
    (h : ∀ p ∈ ps, ¬ p.2.status = "active" →
      k ≠ toString p.2.stop_order_id ∧ k ≠ toString p.2.target_order_id) :
    dictGet (pruneLookup ps lk) k = dictGet lk k := by
  induction ps generalizing lk with
  | nil => simp [pruneLookup]
  | cons q t ih =>
    simp only [pruneLookup]
    rw [ih _ (fun p hp => h p (List.mem_cons_of_mem _ hp))]
    by_cases hs : q.2.status = "active"
    · simp [hs]
    · obtain ⟨h1, h2⟩ := h q (List.mem_cons_self _ _) hs
      simp [hs, dictGet_remove, h1, h2]

/-! ## handle_oco_fill_by_lookup lemmas -/

theorem handle_lookup_eq (st : OCOState) (info : LookupInfo) (ok : Bool) :
    (handle_oco_fill_by_lookup st info ok).1.oco_order_lookup = st.oco_order_lookup := by
  unfold handle_oco_fill_by_lookup
  cases dictGet st.oco_pairs info.entry_id <;> simp <;> split_ifs <;> simp

theorem handle_events_eq (st : OCOState) (info : LookupInfo) (ok : Bool) :
    (handle_oco_fill_by_lookup st info ok).1.order_events = st.order_events := by
  unfold handle_oco_fill_by_lookup
  cases dictGet st.oco_pairs info.entry_id <;> simp <;> split_ifs <;> simp

theorem handle_nonactive (st : OCOState) (info : LookupInfo) (ok : Bool) (d : OCOData)
    (h : dictGet st.oco_pairs info.entry_id = some d) (h2 : ¬ d.status = "active") :
    handle_oco_fill_by_lookup st info ok = (st, []) := by
  unfold handle_oco_fill_by_lookup
  rw [h]
  simp [h2]

theorem handle_absent (st : OCOState) (info : LookupInfo) (ok : Bool)
    (h : dictGet st.oco_pairs info.entry_id = none) :
    handle_oco_fill_by_lookup st info ok = (st, []) := by
  unfold handle_oco_fill_by_lookup
  rw [h]

theorem handle_pairs_get (st : OCOState) (info : LookupInfo) (ok : Bool) (eid : Nat) :
    dictGet (handle_oco_fill_by_lookup st info ok).1.oco_pairs eid = dictGet st.oco_pairs eid
    ∨ ∃ d s, dictGet st.oco_pairs eid = some d ∧ d.status = "active"
        ∧ (s = "stop_hit" ∨ s = "target_hit")
        ∧ dictGet (handle_oco_fill_by_lookup st info ok).1.oco_pairs eid =
            some { d with status := s, completed_time := true } := by
  unfold handle_oco_fill_by_lookup
  cases hd : dictGet st.oco_pairs info.entry_id with
  | none => left; rfl
  | some d =>
    by_cases hs : d.status = "active"
    · simp only [hs, ne_eq, not_true_eq_false, if_false]
      by_cases hstop : info.legType = "stop"
      · simp only [hstop, if_pos rfl]
        cases ok with
        | false => left; rfl
        | true =>
          by_cases he : info.entry_id = eid
          · subst he
            right
            refine ⟨d, "stop_hit", hd, hs, Or.inl rfl, ?_⟩
            simp [dictGet_insert]
          · left
            simp [dictGet_insert, he]
      · by_cases htgt : info.legType = "target"
        · simp only [hstop, if_neg, htgt, if_pos rfl]
          cases ok with
          | false => left; rfl
          | true =>
            by_cases he : info.entry_id = eid
            · subst he
              right
              refine ⟨d, "target_hit", hd, hs, Or.inr rfl, ?_⟩
              simp [dictGet_insert]
            · left
              simp [dictGet_insert, he]
        · left
          simp [hstop, htgt]
    · left
      simp [hs]

theorem handle_pairs_keys (st : OCOState) (info : LookupInfo) (ok : Bool) :
    (handle_oco_fill_by_lookup st info ok).1.oco_pairs.map Prod.fst =
      st.oco_pairs.map Prod.fst := by
  unfold handle_oco_fill_by_lookup
  cases hd : dictGet st.oco_pairs info.entry_id with
  | none => rfl
  | some d =>
    have hmem : info.entry_id ∈ st.oco_pairs.map Prod.fst := dictGet_some_mem_keys _ _ _ hd
    by_cases hs : d.status = "active"
    · simp only [hs, ne_eq, not_true_eq_false, if_false]
      split_ifs <;> simp [dictInsert_keys, hmem]
    · simp [hs]

theorem handle_calls_mem (st : OCOState) (info : LookupInfo) (ok : Bool) (c : CancelCall)
    (h : c ∈ (handle_oco_fill_by_lookup st info ok).2) :
    c.entry_id = info.entry_id ∧ c.partner_id = info.partner_id ∧ c.ok = ok
    ∧ ∃ d, dictGet st.oco_pairs info.entry_id = some d ∧ d.status = "active" := by
  unfold handle_oco_fill_by_lookup at h
  cases hd : dictGet st.oco_pairs info.entry_id with
  | none => rw [hd] at h; simp at h
  | some d =>
    rw [hd] at h
    by_cases hs : d.status = "active"
    · simp only [hs, ne_eq, not_true_eq_false, if_false] at h
      split_ifs at h <;> simp_all <;> exact ⟨d, rfl, hs⟩
    · simp [hs] at h

theorem handle_calls_len (st : OCOState) (info : LookupInfo) (ok : Bool) :
    (handle_oco_fill_by_lookup st info ok).2.length ≤ 1 := by
  unfold handle_oco_fill_by_lookup
  cases dictGet st.oco_pairs info.entry_id <;> simp <;> split_ifs <;> simp

theorem handle_success (st : OCOState) (info : LookupInfo) (ok : Bool) (c : CancelCall)
    (h : c ∈ (handle_oco_fill_by_lookup st info ok).2) (hok : c.ok = true) :
    ∃ d2, dictGet (handle_oco_fill_by_lookup st info ok).1.oco_pairs info.entry_id = some d2
      ∧ ¬ d2.status = "active" := by
  obtain ⟨he, hp, hco, d, hd, hs⟩ := handle_calls_mem st info ok c h
  have hok2 : ok = true := by rw [← hco]; exact hok
  subst hok2
  by_cases hstop : info.legType = "stop"
  · have heq : handle_oco_fill_by_lookup st info true = ({ st with oco_pairs := dictInsert st.oco_pairs info.entry_id { d with status := "stop_hit", completed_time := true } }, [⟨info.entry_id, info.partner_id, true⟩]) := by
      unfold handle_oco_fill_by_lookup
      rw [hd]
      simp [hs, hstop]
    rw [heq]
    refine ⟨{ d with status := "stop_hit", completed_time := true }, ?_, by simp⟩
    simp [dictGet_insert]
  · by_cases htgt : info.legType = "target"
    · have heq : handle_oco_fill_by_lookup st info true = ({ st with oco_pairs := dictInsert st.oco_pairs info.entry_id { d with status := "target_hit", completed_time := true } }, [⟨info.entry_id, info.partner_id, true⟩]) := by
        unfold handle_oco_fill_by_lookup
        rw [hd]
        simp [hs, hstop, htgt]
      rw [heq]
      refine ⟨{ d with status := "target_hit", completed_time := true }, ?_, by simp⟩
      simp [dictGet_insert]
    · have heq : handle_oco_fill_by_lookup st info true = (st, []) := by
        unfold handle_oco_fill_by_lookup
        rw [hd]
        simp [hs, hstop, htgt]
      rw [heq] at h
      simp at h

/-! ## on_order_update step lemmas -/

theorem logEvent_pairs (st : OCOState) (fs : List (String × PyVal)) (s : String) :
    (logEvent st fs s).oco_pairs = st.oco_pairs := rfl

theorem logEvent_lookup (st : OCOState) (fs : List (String × PyVal)) (s : String) :
    (logEvent st fs s).oco_order_lookup = st.oco_order_lookup := rfl

theorem step_lookup_eq (st : OCOState) (data : PyVal) (ok : Bool) :
    (on_order_update st data ok).state.oco_order_lookup = st.oco_order_lookup := by
  unfold on_order_update
  repeat' split
  all_goals first
    | rfl
    | (apply handle_lookup_eq)

theorem step_pairs_get (st : OCOState) (data : PyVal) (ok : Bool) (eid : Nat) :
    dictGet (on_order_update st data ok).state.oco_pairs eid = dictGet st.oco_pairs eid
    ∨ ∃ d s, dictGet st.oco_pairs eid = some d ∧ d.status = "active"
        ∧ (s = "stop_hit" ∨ s = "target_hit")
        ∧ dictGet (on_order_update st data ok).state.oco_pairs eid =
            some { d with status := s, completed_time := true } := by
  unfold on_order_update
  repeat' split
  all_goals first
    | (left; rfl)
    | (apply handle_pairs_get)

theorem step_pairs_keys (st : OCOState) (data : PyVal) (ok : Bool) :
    (on_order_update st data ok).state.oco_pairs.map Prod.fst =
      st.oco_pairs.map Prod.fst := by
  unfold on_order_update
  repeat' split
  all_goals first
    | rfl
    | (apply handle_pairs_keys)

/-- Shape of one on_order_update step: either no cancel activity and the
pair table untouched, or the step delegated to handle_oco_fill_by_lookup
for the looked-up bracket info. -/
theorem step_shape (st : OCOState) (data : PyVal) (ok : Bool) :
    ((on_order_update st data ok).state.oco_pairs = st.oco_pairs
      ∧ (on_order_update st data ok).calls = [])
    ∨ ∃ fs status info, dictGet st.oco_order_lookup (rawOrderId fs) = some info
        ∧ (on_order_update st data ok).state.oco_pairs =
            (handle_oco_fill_by_lookup (logEvent st fs status) info ok).1.oco_pairs
        ∧ (on_order_update st data ok).calls =
            (handle_oco_fill_by_lookup (logEvent st fs status) info ok).2 := by
  unfold on_order_update
  repeat' split
  all_goals first
    | (exact Or.inl ⟨rfl, rfl⟩)
    | (exact Or.inr ⟨_, _, _, by assumption, rfl, rfl⟩)

theorem step_calls_mem (st : OCOState) (data : PyVal) (ok : Bool) (c : CancelCall)
    (h : c ∈ (on_order_update st data ok).calls) :
    ∃ d, dictGet st.oco_pairs c.entry_id = some d ∧ d.status = "active" := by
  rcases step_shape st data ok with ⟨_, hc⟩ | ⟨fs, status, info, _, _, hc⟩
  · rw [hc] at h
    simp at h
  · rw [hc] at h
    obtain ⟨he, hp, hco, d, hd, hs⟩ := handle_calls_mem _ _ _ _ h
    exact ⟨d, by rw [he]; exact hd, hs⟩

theorem step_calls_len (st : OCOState) (data : PyVal) (ok : Bool) :
    (on_order_update st data ok).calls.length ≤ 1 := by
  rcases step_shape st data ok with ⟨_, hc⟩ | ⟨fs, status, info, _, _, hc⟩
  · simp [hc]
  · rw [hc]
    exact handle_calls_len _ _ _

theorem step_success (st : OCOState) (data : PyVal) (ok : Bool) (c : CancelCall)
    (h : c ∈ (on_order_update st data ok).calls) (hok : c.ok = true) :
    ∃ d2, dictGet (on_order_update st data ok).state.oco_pairs c.entry_id = some d2
      ∧ ¬ d2.status = "active" := by
  rcases step_shape st data ok with ⟨_, hc⟩ | ⟨fs, status, info, _, hp2, hc⟩
  · rw [hc] at h
    simp at h
  · rw [hc] at h
    obtain ⟨he, _, _, _, _, _⟩ := handle_calls_mem _ _ _ _ h
    rw [hp2, he]
    exact handle_success _ _ _ c h hok

/-! ## Event sequence lemmas -/

theorem step_nonactive_frozen (st : OCOState) (data : PyVal) (ok : Bool) (eid : Nat)
    (d : OCOData) (hd : dictGet st.oco_pairs eid = some d) (hs : ¬ d.status = "active") :
    dictGet (on_order_update st data ok).state.oco_pairs eid = some d := by
  rcases step_pairs_get st data ok eid with h | ⟨d2, s, hd2, hact, _, _⟩
  · rw [h, hd]
  · rw [hd] at hd2
    injection hd2 with e
    subst e
    exact absurd hact hs

theorem step_nonactive_pred (st : OCOState) (data : PyVal) (ok : Bool) (eid : Nat)
    (h : ∀ d, dictGet st.oco_pairs eid = some d → ¬ d.status = "active") :
    ∀ d, dictGet (on_order_update st data ok).state.oco_pairs eid = some d →
      ¬ d.status = "active" := by
  intro d hd
  rcases step_pairs_get st data ok eid with hg | ⟨d2, s, hd2, hact, hsv, hg⟩
  · exact h d (by rw [← hg]; exact hd)
  · rw [hg] at hd
    injection hd with e
    subst e
    rcases hsv with e | e <;> simp [e]

theorem processEvents_frozen (events : List (PyVal × Bool)) :
    ∀ (st : OCOState) (eid : Nat) (d : OCOData),
      dictGet st.oco_pairs eid = some d → ¬ d.status = "active" →
      dictGet (processEvents st events).1.oco_pairs eid = some d := by
  induction events with
  | nil => intro st eid d hd _; exact hd
  | cons ev t ih =>
    intro st eid d hd hs
    obtain ⟨dv, okv⟩ := ev
    simp only [processEvents]
    exact ih _ eid d (step_nonactive_frozen st dv okv eid d hd hs) hs

theorem countSuccess_append (eid : Nat) (a b : List CancelCall) :
    countSuccess eid (a ++ b) = countSuccess eid a + countSuccess eid b := by
  simp [countSuccess, List.filter_append]

theorem countSuccess_le_length (eid : Nat) (calls : List CancelCall) :
    countSuccess eid calls ≤ calls.length :=
  List.length_filter_le _ _

theorem countSuccess_eq_zero (eid : Nat) (calls : List CancelCall)
    (h : ∀ c ∈ calls, ¬ (c.entry_id = eid ∧ c.ok = true)) :
    countSuccess eid calls = 0 := by
  simp only [countSuccess, List.length_eq_zero]
  rw [List.filter_eq_nil]
  intro c hc
  have := h c hc
  simp only [Bool.and_eq_true, decide_eq_true_eq]
  intro hcon
  exact this hcon

theorem countSuccess_pos_elim (eid : Nat) (calls : List CancelCall)
    (h : countSuccess eid calls ≠ 0) :
    ∃ c ∈ calls, c.entry_id = eid ∧ c.ok = true := by
  simp only [countSuccess] at h
  rcases List.exists_mem_of_length_pos (Nat.pos_of_ne_zero h) with ⟨c, hc⟩
  rcases List.mem_filter.mp hc with ⟨hc1, hc2⟩
  simp only [Bool.and_eq_true, decide_eq_true_eq] at hc2
  exact ⟨c, hc1, hc2⟩

theorem processEvents_count (events : List (PyVal × Bool)) :
    ∀ (st : OCOState) (eid : Nat),
      countSuccess eid (processEvents st events).2 ≤ 1
      ∧ ((∀ d, dictGet st.oco_pairs eid = some d → ¬ d.status = "active") →
          countSuccess eid (processEvents st events).2 = 0) := by
  induction events with
  | nil =>
    intro st eid
    exact ⟨by simp [processEvents, countSuccess], fun _ => by simp [processEvents, countSuccess]⟩
  | cons ev t ih =>
    intro st eid
    obtain ⟨dv, okv⟩ := ev
    simp only [processEvents, countSuccess_append]
    constructor
    · by_cases hz : countSuccess eid (on_order_update st dv okv).calls = 0
      · rw [hz, Nat.zero_add]
        exact (ih _ eid).1
      · obtain ⟨c, hc, he, hok⟩ := countSuccess_pos_elim _ _ hz
        obtain ⟨d2, hd2, hna⟩ := step_success st dv okv c hc hok
        rw [he] at hd2
        have hrest : countSuccess eid (processEvents (on_order_update st dv okv).state t).2 = 0 := by
          refine ((ih _ eid).2) ?_
          intro d hd
          rw [hd2] at hd
          injection hd with e
          subst e
          exact hna
        rw [hrest, Nat.add_zero]
        calc countSuccess eid (on_order_update st dv okv).calls
            ≤ (on_order_update st dv okv).calls.length := countSuccess_le_length _ _
          _ ≤ 1 := step_calls_len st dv okv
    · intro hna
      have hstep : countSuccess eid (on_order_update st dv okv).calls = 0 := by
        refine countSuccess_eq_zero _ _ ?_
        intro c hc hcon
        obtain ⟨d, hd, hs⟩ := step_calls_mem st dv okv c hc
        rw [hcon.1] at hd
        exact hna d hd hs
      have hrest : countSuccess eid (processEvents (on_order_update st dv okv).state t).2 = 0 :=
        (ih _ eid).2 (step_nonactive_pred st dv okv eid hna)
      rw [hstep, hrest]

/-- A fill event whose order id maps to a bracket that is already in a
terminal stop_hit or target_hit state only logs the event: no cancel
call, no error, and the pair table and lookup index are untouched. -/
theorem step_duplicate_fill (st : OCOState) (data : PyVal) (ok : Bool)
    (fs : List (String × PyVal)) (info : LookupInfo) (d : OCOData) (n : Int) (s : String)
    (hnorm : pyNormalizeOrderData data = PyVal.dict fs)
    (hdec : decode_order_status ((dictGet fs "status").getD PyVal.none) = Except.ok s)
    (hfill : rawFilledSize fs = PyVal.int n)
    (hlk : dictGet st.oco_order_lookup (rawOrderId fs) = some info)
    (hd : dictGet st.oco_pairs info.entry_id = some d)
    (hs : d.status = "stop_hit" ∨ d.status = "target_hit") :
    (on_order_update st data ok).state.oco_pairs = st.oco_pairs
    ∧ (on_order_update st data ok).state.oco_order_lookup = st.oco_order_lookup
    ∧ (on_order_update st data ok).calls = []
    ∧ (on_order_update st data ok).err = none := by
  have hnact : ¬ d.status = "active" := by rcases hs with e | e <;> simp [e]
  have hh := handle_nonactive (logEvent st fs s) info ok d hd hnact
  unfold on_order_update
  repeat' split
  all_goals simp_all [hh, logEvent, pyGtZero]

/-! ## create_oco_order shape -/

/-- Shape of one create_oco_order call: either the state is untouched (a
guard failed before registration) or all three placements succeeded and
the bracket plus its two lookup entries were registered. -/
theorem create_state_cases (st : OCOState) (sd td : ℚ) (cid : String) (side size : Nat)
    (priceRes : Option ℚ) (entryRes stopRes targetRes : Option Nat) :
    (create_oco_order st sd td cid side size priceRes entryRes stopRes targetRes).state = st
    ∨ ∃ p eid sid tid dD, priceRes = some p ∧ entryRes = some eid ∧ stopRes = some sid
        ∧ targetRes = some tid
        ∧ dD.entry_order_id = eid ∧ dD.stop_order_id = sid ∧ dD.target_order_id = tid
        ∧ dD.status = "active"
        ∧ (create_oco_order st sd td cid side size priceRes entryRes stopRes targetRes).state.oco_pairs
            = dictInsert st.oco_pairs eid dD
        ∧ (create_oco_order st sd td cid side size priceRes entryRes stopRes targetRes).state.oco_order_lookup
            = dictInsert (dictInsert st.oco_order_lookup (toString sid) ⟨eid, "stop", toString tid⟩)
                (toString tid) ⟨eid, "target", toString sid⟩
        ∧ (create_oco_order st sd td cid side size priceRes entryRes stopRes targetRes).state.order_events
            = st.order_events := by
  unfold create_oco_order
  repeat' split
  all_goals first
    | (exact Or.inl rfl)
    | (exact Or.inr ⟨_, _, _, _, _, rfl, rfl, rfl, rfl, rfl, rfl, rfl, rfl, rfl, rfl, rfl⟩)

/-! ## Lookup index well-formedness invariant -/

theorem stateWF_empty : stateWF emptyOCOState := by
  refine ⟨List.nodup_nil, ?_, ?_⟩
  · intro eid d h
    simp [emptyOCOState, dictGet] at h
  · intro k info h
    simp [emptyOCOState, dictGet] at h

theorem stateWF_create (st : OCOState) (sd td : ℚ) (cid : String) (side size : Nat)
    (priceRes : Option ℚ) (entryRes stopRes targetRes : Option Nat)
    (hwf : stateWF st)
    (hfresh : ∀ p eid sid tid, priceRes = some p → entryRes = some eid →
        stopRes = some sid → targetRes = some tid →
        dictGet st.oco_pairs eid = none
        ∧ dictGet st.oco_order_lookup (toString sid) = none
        ∧ dictGet st.oco_order_lookup (toString tid) = none
        ∧ toString sid ≠ toString tid) :
    stateWF (create_oco_order st sd td cid side size priceRes entryRes stopRes targetRes).state := by
  rcases create_state_cases st sd td cid side size priceRes entryRes stopRes targetRes with
    h | ⟨p, eid, sid, tid, dD, hp, he, hs, ht, hde, hds, hdt, hda, hpairs, hlk, hev⟩
  · rw [h]
    exact hwf
  · obtain ⟨hfp, hfs, hft, hfd⟩ := hfresh p eid sid tid hp he hs ht
    obtain ⟨hnd, hfwd, hbwd⟩ := hwf
    refine ⟨?_, ?_, ?_⟩
    · rw [hpairs]
      exact dictInsert_keys_nodup _ _ _ hnd
    · intro eid2 d2 hget
      rw [hpairs, dictGet_insert] at hget
      unfold pairWF
      rw [hlk]
      by_cases heq : eid = eid2
      · rw [if_pos heq] at hget
        injection hget with hget
        subst hget
        subst heq
        rw [hds, hdt, dictGet_insert, dictGet_insert, dictGet_insert, dictGet_insert]
        have hne : ¬ toString tid = toString sid := fun e => hfd e.symm
        rw [if_neg hne, if_pos rfl, if_pos rfl]
        exact ⟨rfl, rfl, hfd⟩
      · rw [if_neg heq] at hget
        obtain ⟨w1, w2, w3⟩ := hfwd eid2 d2 hget
        have q1 : ¬ toString sid = toString d2.stop_order_id := by
          intro e
          rw [← e, hfs] at w1
          cases w1
        have q2 : ¬ toString tid = toString d2.stop_order_id := by
          intro e
          rw [← e, hft] at w1
          cases w1
        have q3 : ¬ toString sid = toString d2.target_order_id := by
          intro e
          rw [← e, hfs] at w2
          cases w2
        have q4 : ¬ toString tid = toString d2.target_order_id := by
          intro e
          rw [← e, hft] at w2
          cases w2
        rw [dictGet_insert, dictGet_insert, dictGet_insert, dictGet_insert,
          if_neg q2, if_neg q1, if_neg q4, if_neg q3]
        exact ⟨w1, w2, w3⟩
    · intro k info hget
      rw [hlk, dictGet_insert] at hget
      by_cases hkt : toString tid = k
      · rw [if_pos hkt] at hget
        injection hget with hget
        subst hget
        refine ⟨dD, ?_, Or.inr ⟨?_, rfl, ?_⟩⟩
        · rw [hpairs, dictGet_insert, if_pos rfl]
        · rw [hdt, hkt]
        · rw [hds]
      · rw [if_neg hkt, dictGet_insert] at hget
        by_cases hks : toString sid = k
        · rw [if_pos hks] at hget
          injection hget with hget
          subst hget
          refine ⟨dD, ?_, Or.inl ⟨?_, rfl, ?_⟩⟩
          · rw [hpairs, dictGet_insert, if_pos rfl]
          · rw [hds, hks]
          · rw [hdt]
        · rw [if_neg hks] at hget
          obtain ⟨d, hd, hcond⟩ := hbwd k info hget
          refine ⟨d, ?_, hcond⟩
          rw [hpairs, dictGet_insert]
          have : ¬ eid = info.entry_id := by
            intro e
            rw [← e, hfp] at hd
            cases hd
          rw [if_neg this]
          exact hd

theorem stateWF_step (st : OCOState) (data : PyVal) (ok : Bool) (hwf : stateWF st) :
    stateWF (on_order_update st data ok).state := by
  obtain ⟨hnd, hfwd, hbwd⟩ := hwf
  refine ⟨?_, ?_, ?_⟩
  · rw [step_pairs_keys]
    exact hnd
  · intro eid d hget
    unfold pairWF
    rw [step_lookup_eq]
    rcases step_pairs_get st data ok eid with hg | ⟨d0, s, hd0, hact, hsv, hg⟩
    · rw [hg] at hget
      exact hfwd eid d hget
    · rw [hg] at hget
      injection hget with e
      subst e
      exact hfwd eid d0 hd0
  · intro k info hget
    rw [step_lookup_eq] at hget
    obtain ⟨d, hd, hcond⟩ := hbwd k info hget
    rcases step_pairs_get st data ok info.entry_id with hg | ⟨d0, s, hd0, hact, hsv, hg⟩
    · exact ⟨d, by rw [hg]; exact hd, hcond⟩
    · rw [hd0] at hd
      injection hd with e
      subst e
      exact ⟨{ d0 with status := s, completed_time := true }, hg, hcond⟩

theorem stateWF_cleanup (st : OCOState) (hwf : stateWF st) :
    stateWF (cleanup_completed_ocos st) := by
  obtain ⟨hnd, hfwd, hbwd⟩ := hwf
  refine ⟨?_, ?_, ?_⟩
  · exact hnd.sublist ((List.filter_sublist _).map _)
  · intro eid d hget
    have hact : d.status = "active" := by
      simpa using dictGet_filter_some _ _ _ _ hget
    have hget0 : dictGet st.oco_pairs eid = some d := dictGet_filter_nodup _ _ _ _ hnd hget
    obtain ⟨w1, w2, w3⟩ := hfwd eid d hget0
    unfold pairWF
    have hkeep : ∀ kd : String,
        dictGet st.oco_order_lookup kd = some ⟨eid, "stop", toString d.target_order_id⟩
          ∨ dictGet st.oco_order_lookup kd = some ⟨eid, "target", toString d.stop_order_id⟩ →
        ∀ q ∈ st.oco_pairs, ¬ q.2.status = "active" →
          kd ≠ toString q.2.stop_order_id ∧ kd ≠ toString q.2.target_order_id := by
      intro kd hw q hq hqna
      have hqget : dictGet st.oco_pairs q.1 = some q.2 := dictGet_of_mem_nodup _ _ _ hnd hq
      obtain ⟨u1, u2, u3⟩ := hfwd q.1 q.2 hqget
      constructor
      · intro e
        rcases hw with hw | hw
        · rw [e, u1] at hw
          injection hw with hw
          have he : q.1 = eid := congrArg LookupInfo.entry_id hw
          rw [he, hget0] at hqget
          injection hqget with hq2
          rw [hq2] at hact
          exact hqna hact
        · rw [e, u1] at hw
          have : "stop" = "target" := congrArg LookupInfo.legType (Option.some.inj hw)
          exact absurd this (by decide)
      · intro e
        rcases hw with hw | hw
        · rw [e, u2] at hw
          have : "target" = "stop" := congrArg LookupInfo.legType (Option.some.inj hw)
          exact absurd this (by decide)
        · rw [e, u2] at hw
          injection hw with hw
          have he : q.1 = eid := congrArg LookupInfo.entry_id hw
          rw [he, hget0] at hqget
          injection hqget with hq2
          rw [hq2] at hact
          exact hqna hact
    have e1 : dictGet (cleanup_completed_ocos st).oco_order_lookup (toString d.stop_order_id)
        = dictGet st.oco_order_lookup (toString d.stop_order_id) :=
      prune_kept _ _ _ (hkeep _ (Or.inl w1))
    have e2 : dictGet (cleanup_completed_ocos st).oco_order_lookup (toString d.target_order_id)
        = dictGet st.oco_order_lookup (toString d.target_order_id) :=
      prune_kept _ _ _ (hkeep _ (Or.inr w2))
    rw [e1, e2]
    exact ⟨w1, w2, w3⟩
  · intro k info hget
    have hget0 : dictGet st.oco_order_lookup k = some info := prune_get_some _ _ _ _ hget
    obtain ⟨d, hd, hcond⟩ := hbwd k info hget0
    have hdm : (info.entry_id, d) ∈ st.oco_pairs := dictGet_some_mem _ _ _ hd
    have hact : d.status = "active" := by
      by_contra hna
      have hnone : dictGet (pruneLookup st.oco_pairs st.oco_order_lookup) k = none := by
        refine prune_removed _ _ _ (info.entry_id, d) hdm hna ?_
        rcases hcond with ⟨e, _, _⟩ | ⟨e, _, _⟩
        · exact Or.inl e
        · exact Or.inr e
      rw [show (cleanup_completed_ocos st).oco_order_lookup
          = pruneLookup st.oco_pairs st.oco_order_lookup from rfl, hnone] at hget
      cases hget
    refine ⟨d, ?_, hcond⟩
    exact dictGet_filter_of_get _ _ _ _ hd (by simpa using hact)

theorem cleanup_pairs_active (st : OCOState) (eid : Nat) (d : OCOData)
    (h : dictGet (cleanup_completed_ocos st).oco_pairs eid = some d) :
    d.status = "active" := by
  simpa using dictGet_filter_some _ _ _ _ h

theorem cleanup_lookup_removed (st : OCOState) (eid : Nat) (d : OCOData)
    (hd : dictGet st.oco_pairs eid = some d) (hna : ¬ d.status = "active") :
    dictGet (cleanup_completed_ocos st).oco_order_lookup (toString d.stop_order_id) = none
    ∧ dictGet (cleanup_completed_ocos st).oco_order_lookup (toString d.target_order_id) = none :=
  ⟨prune_removed _ _ _ (eid, d) (dictGet_some_mem _ _ _ hd) hna (Or.inl rfl),
   prune_removed _ _ _ (eid, d) (dictGet_some_mem _ _ _ hd) hna (Or.inr rfl)⟩

theorem stateWF_reachable (st : OCOState) (h : ReachableOCO st) : stateWF st := by
  induction h with
  | init => exact stateWF_empty
  | create st sd td cid side size pR eR sR tR hst hfresh ih =>
    exact stateWF_create _ _ _ _ _ _ _ _ _ _ ih hfresh
  | update st data ok hst ih => exact stateWF_step _ _ _ ih
  | cleanupCompleted st hst ih => exact stateWF_cleanup _ ih
  | cleanupOrd st hst ih => exact stateWF_cleanup _ ih

/-! ## Market data subscription lemmas -/

theorem setAdd_nodup (l : List String) (x : String) (h : l.Nodup) : (setAdd l x).Nodup := by
  unfold setAdd
  split
  · exact h
  · rename_i hm
    exact List.Nodup.append h (List.nodup_singleton x)
      (fun a ha hb => hm ((List.mem_singleton.mp hb) ▸ ha))

theorem setDiscard_nodup (l : List String) (x : String) (h : l.Nodup) :
    (setDiscard l x).Nodup :=
  h.filter _

theorem applyMDOps_nodup (ops : List MDOp) :
    ∀ st : MDState, st.quotes.Nodup → st.trades.Nodup → st.depth.Nodup →
      (applyMDOps st ops).quotes.Nodup ∧ (applyMDOps st ops).trades.Nodup
        ∧ (applyMDOps st ops).depth.Nodup := by
  induction ops with
  | nil => intro st h1 h2 h3; exact ⟨h1, h2, h3⟩
  | cons op t ih =>
    intro st h1 h2 h3
    cases op with
    | subQ cid ok =>
      cases ok with
      | true => exact ih _ (setAdd_nodup _ _ h1) h2 h3
      | false => exact ih _ h1 h2 h3
    | subT cid ok =>
      cases ok with
      | true => exact ih _ h1 (setAdd_nodup _ _ h2) h3
      | false => exact ih _ h1 h2 h3
    | subD cid ok =>
      cases ok with
      | true => exact ih _ h1 h2 (setAdd_nodup _ _ h3)
      | false => exact ih _ h1 h2 h3
    | unsubQ cid ok =>
      cases ok with
      | true => exact ih _ (setDiscard_nodup _ _ h1) h2 h3
      | false => exact ih _ h1 h2 h3
    | unsubT cid ok =>
      cases ok with
      | true => exact ih _ h1 (setDiscard_nodup _ _ h2) h3
      | false => exact ih _ h1 h2 h3
    | unsubD cid ok =>
      cases ok with
      | true => exact ih _ h1 h2 (setDiscard_nodup _ _ h3)
      | false => exact ih _ h1 h2 h3

theorem onOpenCommands_eq (st : MDState) : onOpenCommands st = resubscribe_all st := by
  unfold onOpenCommands
  split
  · rename_i h
    simp only [Bool.and_eq_true, List.isEmpty_iff] at h
    simp [resubscribe_all, h.1.1, h.1.2, h.2]
  · rfl

theorem subQuotes_injective : Function.Injective WireCmd.subQuotes := by
  intro a b h
  injection h

theorem subTrades_injective : Function.Injective WireCmd.subTrades := by
  intro a b h
  injection h

theorem subDepth_injective : Function.Injective WireCmd.subDepth := by
  intro a b h
  injection h

theorem count_map_ne {α : Type} (l : List α) (f : α → WireCmd) (x : WireCmd)
    (h : ∀ a, f a ≠ x) : (l.map f).count x = 0 := by
  refine List.count_eq_zero_of_not_mem ?_
  intro hm
  rcases List.mem_map.mp hm with ⟨a, _, ha⟩
  exact h a ha

theorem count_map_mem (l : List String) (f : String → WireCmd)
    (hf : Function.Injective f) (hnd : l.Nodup) (c : String) :
    (l.map f).count (f c) = if c ∈ l then 1 else 0 := by
  rw [List.count_map_of_injective _ _ hf]
  by_cases hm : c ∈ l
  · rw [if_pos hm]
    exact List.count_eq_one_of_mem hnd hm
  · rw [if_neg hm]
    exact List.count_eq_zero_of_not_mem hm

/-! ## Reconnect backoff lemmas -/

theorem reconnectDelaysFrom_length (backoff : List Nat) (n : Nat) :
    ∀ a : Nat, (reconnectDelaysFrom backoff a n).length = n := by
  induction n with
  | zero => intro a; rfl
  | succ m ih => intro a; simp [reconnectDelaysFrom, ih]

theorem reconnectDelaysFrom_getD (backoff : List Nat) (n : Nat) :
    ∀ a k : Nat, k < n →
      (reconnectDelaysFrom backoff a n).getD k 0 = backoffDelay backoff (a + k) := by
  induction n with
  | zero => intro a k h; omega
  | succ m ih =>
    intro a k hk
    cases k with
    | zero => simp [reconnectDelaysFrom]
    | succ j =>
      have hj : j < m := by omega
      simp only [reconnectDelaysFrom, List.getD_cons_succ]
      rw [ih (a + 1) j hj]
      congr 1
      omega

theorem reconnectDelays_getD (backoff : List Nat) (n k : Nat) (h : k < n) :
    (reconnectDelays backoff false n).getD k 0
      = backoff.getD (min k (backoff.length - 1)) 0 := by
  unfold reconnectDelays
  rw [if_neg (by simp), reconnectDelaysFrom_getD backoff n 0 k h]
  simp [backoffDelay]

theorem default_delay_mono (i j : Nat) (hij : i ≤ j) :
    backoffDelay DEFAULT_BACKOFF i ≤ backoffDelay DEFAULT_BACKOFF j := by
  unfold backoffDelay DEFAULT_BACKOFF
  have hb : ∀ x, x < 4 → ∀ y, y < 4 → x ≤ y →
      ([2, 5, 10, 30] : List Nat).getD x 0 ≤ ([2, 5, 10, 30] : List Nat).getD y 0 := by decide
  simp only [List.length_cons, List.length_nil]
  exact hb _ (by omega) _ (by omega) (by omega)

theorem default_delay_cap (k : Nat) (hk : 3 ≤ k) :
    backoffDelay DEFAULT_BACKOFF k = 30 := by
  unfold backoffDelay DEFAULT_BACKOFF
  have : min k (([2, 5, 10, 30] : List Nat).length - 1) = 3 := by
    simp only [List.length_cons, List.length_nil]
    omega
  rw [this]
  rfl

/-! ## Claim theorems -/

/-- C4: the code is meant to fall back to tag-based correlation for a
fill event whose order id is unknown but whose custom tag carries an OCO
marker; instead, the fallback branch calls self.handle_oco_fill, a method
that does not exist on SimpleOCOManager, so the handler raises
AttributeError out of on_order_update on exactly such an event (here:
id 999 not in the lookup, customTag OCO_STOP, fillVolume 1). -/
theorem C4_tag_fallback_raises :
    (on_order_update emptyOCOState
      (PyVal.dict [("id", PyVal.int 999), ("status", PyVal.int 3),
        ("customTag", PyVal.str "OCO_STOP"), ("fillVolume", PyVal.int 1)]) true).err
      = some PyErr.attributeError
    ∧ (on_order_update emptyOCOState
      (PyVal.dict [("id", PyVal.int 999), ("status", PyVal.int 3),
        ("customTag", PyVal.str "OCO_STOP"), ("fillVolume", PyVal.int 1)]) true).calls
      = [] :=
  ⟨rfl, rfl⟩

/-- A successful create_oco_order requires every broker oracle to have
returned a value: the price resolved and all three placements returned an
order id. -/
theorem create_result_true (st : OCOState) (sd td : ℚ) (cid : String) (side size : Nat)
    (priceRes : Option ℚ) (entryRes stopRes targetRes : Option Nat)
    (h : (create_oco_order st sd td cid side size priceRes entryRes stopRes targetRes).result
      = true) :
    ∃ p eid sid tid, priceRes = some p ∧ entryRes = some eid ∧ stopRes = some sid
      ∧ targetRes = some tid := by
  unfold create_oco_order at h
  repeat' split at h
  all_goals first
    | exact ⟨_, _, _, _, rfl, rfl, rfl, rfl⟩
    | simp at h

/-- C6: if the stop leg placement or the target leg placement reports no
order id, create_oco_order returns a failure and leaves the bracket table
and the lookup index exactly as they were, so no future fill event can
match a half-built bracket. -/
theorem C6_partial_placement_safety (st : OCOState) (sd td : ℚ) (cid : String)
    (side size : Nat) (priceRes : Option ℚ) (entryRes stopRes targetRes : Option Nat) :
    ((create_oco_order st sd td cid side size priceRes entryRes none targetRes).state = st
      ∧ (create_oco_order st sd td cid side size priceRes entryRes none targetRes).result = false)
    ∧ ((create_oco_order st sd td cid side size priceRes entryRes stopRes none).state = st
      ∧ (create_oco_order st sd td cid side size priceRes entryRes stopRes none).result = false) := by
  refine ⟨⟨?_, ?_⟩, ⟨?_, ?_⟩⟩
  · rcases create_state_cases st sd td cid side size priceRes entryRes none targetRes with
      h | ⟨p, eid, sid, tid, dD, hp, he, hs, ht, hrest⟩
    · exact h
    · cases hs
  · cases hres : (create_oco_order st sd td cid side size priceRes entryRes none targetRes).result
    · rfl
    · obtain ⟨p, eid, sid, tid, _, _, hs, _⟩ :=
        create_result_true st sd td cid side size priceRes entryRes none targetRes hres
      cases hs
  · rcases create_state_cases st sd td cid side size priceRes entryRes stopRes none with
      h | ⟨p, eid, sid, tid, dD, hp, he, hs, ht, hrest⟩
    · exact h
    · cases ht
  · cases hres : (create_oco_order st sd td cid side size priceRes entryRes stopRes none).result
    · rfl
    · obtain ⟨p, eid, sid, tid, _, _, _, ht⟩ :=
        create_result_true st sd td cid side size priceRes entryRes stopRes none hres
      cases ht

/-- C7: with a resolved market price of 100.0, stop and target distances
of 6 and a Buy entry, create_oco_order places the stop leg at 94.0 and
the target leg at 106.0, both with side Sell (1); with a Sell entry the
stop goes to 106.0, the target to 94.0, both legs side Buy (0). -/
theorem C7_price_direction :
    ((create_oco_order emptyOCOState 6 6 "CON" 0 1 (some 100) (some 1) (some 2) (some 3)).placements
        = [⟨2, 0, 1, none, none, none, "OCO_ENTRY"⟩,
           ⟨4, 1, 1, some 94, none, some 1, "OCO_STOP"⟩,
           ⟨1, 1, 1, none, some 106, some 1, "OCO_TARGET"⟩])
    ∧ ((create_oco_order emptyOCOState 6 6 "CON" 1 1 (some 100) (some 1) (some 2) (some 3)).placements
        = [⟨2, 1, 1, none, none, none, "OCO_ENTRY"⟩,
           ⟨4, 0, 1, some 106, none, some 1, "OCO_STOP"⟩,
           ⟨1, 0, 1, none, some 94, some 1, "OCO_TARGET"⟩]) := by
  constructor <;> (unfold create_oco_order; norm_num)

/-- C10: the guard on the resolved reference price tests Python
truthiness, so a numerically present price of 0.0 aborts exactly like the
no-price case: create_oco_order returns failure, places no orders and
leaves the state untouched. -/
theorem C10_zero_price_aborts (st : OCOState) (sd td : ℚ) (cid : String) (side size : Nat)
    (entryRes stopRes targetRes : Option Nat) :
    create_oco_order st sd td cid side size (some 0) entryRes stopRes targetRes
      = create_oco_order st sd td cid side size none entryRes stopRes targetRes
    ∧ create_oco_order st sd td cid side size (some 0) entryRes stopRes targetRes
      = ⟨st, false, []⟩ := by
  constructor <;> (unfold create_oco_order; simp)

/-- C1: across any sequence of order-update events with arbitrary broker
cancel outcomes, a bracket is cancelled successfully at most once (first
conjunct: at most one successful sibling-cancel per entry id over the
whole run), a bracket that has left the active status is frozen (second
conjunct: its record never changes again, so the status leaves active at
most once), and re-delivering a fill event for a bracket already in
stop_hit or target_hit performs no cancel call, no pair or lookup
mutation and raises nothing (third conjunct). -/
theorem C1_at_most_one_cancel :
    (∀ (st : OCOState) (events : List (PyVal × Bool)) (eid : Nat),
      countSuccess eid (processEvents st events).2 ≤ 1)
    ∧ (∀ (st : OCOState) (events : List (PyVal × Bool)) (eid : Nat) (d : OCOData),
        dictGet st.oco_pairs eid = some d → ¬ d.status = "active" →
        dictGet (processEvents st events).1.oco_pairs eid = some d)
    ∧ (∀ (st : OCOState) (data : PyVal) (ok : Bool) (fs : List (String × PyVal))
        (info : LookupInfo) (d : OCOData) (n : Int) (s : String),
        pyNormalizeOrderData data = PyVal.dict fs →
        decode_order_status ((dictGet fs "status").getD PyVal.none) = Except.ok s →
        rawFilledSize fs = PyVal.int n →
        dictGet st.oco_order_lookup (rawOrderId fs) = some info →
        dictGet st.oco_pairs info.entry_id = some d →
        (d.status = "stop_hit" ∨ d.status = "target_hit") →
        (on_order_update st data ok).state.oco_pairs = st.oco_pairs
        ∧ (on_order_update st data ok).state.oco_order_lookup = st.oco_order_lookup
        ∧ (on_order_update st data ok).calls = []
        ∧ (on_order_update st data ok).err = none) :=
  ⟨fun st events eid => (processEvents_count events st eid).1,
   fun st events eid d hd hs => processEvents_frozen events st eid d hd hs,
   step_duplicate_fill⟩

theorem C1_witness :
    (on_order_update C1wState C1wEvent true).state.oco_pairs = C1wState.oco_pairs
    ∧ (on_order_update C1wState C1wEvent true).state.oco_order_lookup
        = C1wState.oco_order_lookup
    ∧ (on_order_update C1wState C1wEvent true).calls = []
    ∧ (on_order_update C1wState C1wEvent true).err = none :=
  C1_at_most_one_cancel.2.2 C1wState C1wEvent true
    [("id", PyVal.int 2), ("fillVolume", PyVal.int 1)]
    ⟨1, "stop", "3"⟩ C1wData 1 "Unknown(None)" rfl rfl rfl rfl rfl (Or.inl rfl)

/-- C2: for any subscription state reached by any sequence of
subscribe/unsubscribe calls on the market data client, every onOpen
firing replays exactly one wire subscribe command per tracked entry — the
emitted command list is precisely the quotes entries, then the trades
entries, then the depth entries, and each per-channel command occurs once
for a tracked key and never otherwise. -/
theorem C2_replay_completeness (ops : List MDOp) :
    onOpenCommands (applyMDOps initMD ops)
      = (applyMDOps initMD ops).quotes.map WireCmd.subQuotes
        ++ (applyMDOps initMD ops).trades.map WireCmd.subTrades
        ++ (applyMDOps initMD ops).depth.map WireCmd.subDepth
    ∧ (∀ c, (onOpenCommands (applyMDOps initMD ops)).count (WireCmd.subQuotes c)
        = if c ∈ (applyMDOps initMD ops).quotes then 1 else 0)
    ∧ (∀ c, (onOpenCommands (applyMDOps initMD ops)).count (WireCmd.subTrades c)
        = if c ∈ (applyMDOps initMD ops).trades then 1 else 0)
    ∧ (∀ c, (onOpenCommands (applyMDOps initMD ops)).count (WireCmd.subDepth c)
        = if c ∈ (applyMDOps initMD ops).depth then 1 else 0) := by
  obtain ⟨hq, ht, hd⟩ := applyMDOps_nodup ops initMD List.nodup_nil List.nodup_nil List.nodup_nil
  refine ⟨onOpenCommands_eq _, ?_, ?_, ?_⟩
  · intro c
    rw [onOpenCommands_eq]
    unfold resubscribe_all
    rw [List.count_append, List.count_append,
      count_map_mem _ _ subQuotes_injective hq c,
      count_map_ne _ _ _ (fun a e => WireCmd.noConfusion e),
      count_map_ne _ _ _ (fun a e => WireCmd.noConfusion e)]
    omega
  · intro c
    rw [onOpenCommands_eq]
    unfold resubscribe_all
    rw [List.count_append, List.count_append,
      count_map_mem _ _ subTrades_injective ht c,
      count_map_ne _ _ _ (fun a e => WireCmd.noConfusion e),
      count_map_ne _ _ _ (fun a e => WireCmd.noConfusion e)]
    omega
  · intro c
    rw [onOpenCommands_eq]
    unfold resubscribe_all
    rw [List.count_append, List.count_append,
      count_map_mem _ _ subDepth_injective hd c,
      count_map_ne _ _ _ (fun a e => WireCmd.noConfusion e),
      count_map_ne _ _ _ (fun a e => WireCmd.noConfusion e)]
    omega

/-- C3 counterexample: unsubscribing while the wire send fails does NOT
clear the key from the tracked subscription state.  On the market data
client, unsubscribe_contract_quotes with a failed send leaves the
contract in the quotes set; on the realtime client, unsubscribe_orders
whose send raises leaves the account in the orders set.  This refutes the
claim that the key is removed regardless of wire-send success. -/
theorem C3_counterexample :
    (unsubscribe_contract_quotes ⟨["A"], [], []⟩ "A" false).1.quotes = ["A"]
    ∧ "A" ∈ (unsubscribe_contract_quotes ⟨["A"], [], []⟩ "A" false).1.quotes
    ∧ rt_unsubscribe_orders ⟨false, [7], [], []⟩ 7 true = ⟨false, [7], [], []⟩
    ∧ 7 ∈ (rt_unsubscribe_orders ⟨false, [7], [], []⟩ 7 true).orders :=
  ⟨rfl, by decide, rfl, by decide⟩

/-- C3 amended: an unsubscribe call clears the key from the tracked
subscription state only when the wire send succeeds (marketdata: _send
returned True; realtime: connection.send did not raise); when the send
fails or raises, the tracked state is left unchanged and the key remains. -/
theorem C3_unsubscribe_only_on_send_success :
    (∀ (st : MDState) (cid : String),
      (unsubscribe_contract_quotes st cid true).1.quotes = setDiscard st.quotes cid
      ∧ cid ∉ (unsubscribe_contract_quotes st cid true).1.quotes
      ∧ (unsubscribe_contract_quotes st cid false).1 = st)
    ∧ (∀ (st : RTState) (aid : Nat),
      (rt_unsubscribe_orders st aid false).orders = rtSetDiscard st.orders aid
      ∧ aid ∉ (rt_unsubscribe_orders st aid false).orders
      ∧ rt_unsubscribe_orders st aid true = st) := by
  constructor
  · intro st cid
    refine ⟨rfl, ?_, rfl⟩
    intro hm
    simp [unsubscribe_contract_quotes, setDiscard, List.mem_filter] at hm
  · intro st aid
    refine ⟨rfl, ?_, rfl⟩
    intro hm
    simp [rt_unsubscribe_orders, rtSetDiscard, List.mem_filter] at hm

/-- C8: in one reconnect loop run in which the first n attempts all fail,
the delay slept before the k-th failing attempt (0-based index k) is
backoff[min(k, len(backoff) - 1)] for the configured sequence; with the
default sequence (2, 5, 10, 30) the delays are non-decreasing and hold at
30 from the fourth attempt on. -/
theorem C8_backoff_schedule :
    (∀ (b : List Nat) (n k : Nat), k < n →
      (reconnectDelays b false n).getD k 0 = b.getD (min k (b.length - 1)) 0)
    ∧ (∀ n i j : Nat, i ≤ j → j < n →
        (reconnectDelays DEFAULT_BACKOFF false n).getD i 0
          ≤ (reconnectDelays DEFAULT_BACKOFF false n).getD j 0)
    ∧ (∀ n k : Nat, 3 ≤ k → k < n →
        (reconnectDelays DEFAULT_BACKOFF false n).getD k 0 = 30) := by
  refine ⟨reconnectDelays_getD, ?_, ?_⟩
  · intro n i j hij hj
    rw [reconnectDelays_getD DEFAULT_BACKOFF n i (by omega),
      reconnectDelays_getD DEFAULT_BACKOFF n j hj]
    exact default_delay_mono i j hij
  · intro n k hk hkn
    rw [reconnectDelays_getD DEFAULT_BACKOFF n k hkn]
    exact default_delay_cap k hk

theorem C8_witness :
    (reconnectDelays DEFAULT_BACKOFF false 6).getD 1 0 = 5
    ∧ (reconnectDelays DEFAULT_BACKOFF false 6).getD 1 0
        ≤ (reconnectDelays DEFAULT_BACKOFF false 6).getD 5 0
    ∧ (reconnectDelays DEFAULT_BACKOFF false 6).getD 5 0 = 30 := by
  refine ⟨?_, C8_backoff_schedule.2.1 6 1 5 (by omega) (by omega), ?_⟩
  · rw [C8_backoff_schedule.1 DEFAULT_BACKOFF 6 1 (by omega)]
    rfl
  · exact C8_backoff_schedule.2.2 6 5 (by omega) (by omega)

/-- C9 counterexample: an order-update payload that does not normalize to
a dict — a bare scalar, or a list whose first element is not a dict —
makes on_order_update raise AttributeError at order_data.get, refuting
the claim that the handler never lets an exception escape on malformed
payloads of those shapes. -/
theorem C9_counterexample :
    (on_order_update emptyOCOState (PyVal.int 42) true).err = some PyErr.attributeError
    ∧ (on_order_update emptyOCOState (PyVal.list [PyVal.int 7]) true).err
        = some PyErr.attributeError :=
  ⟨rfl, rfl⟩

/-- C9 amended: a payload that normalizes to a dict missing the status
and fillVolume fields is logged as an event and dropped without raising
and without touching the OCO state; a payload that does not normalize to
a dict instead raises AttributeError out of the handler. -/
theorem C9_malformed_payloads :
    (∀ (st : OCOState) (data : PyVal) (ok : Bool) (fs : List (String × PyVal)),
      pyNormalizeOrderData data = PyVal.dict fs →
      dictGet fs "status" = none →
      dictGet fs "fillVolume" = none →
      (on_order_update st data ok).err = none
      ∧ (on_order_update st data ok).calls = []
      ∧ (on_order_update st data ok).state.oco_pairs = st.oco_pairs
      ∧ (on_order_update st data ok).state.oco_order_lookup = st.oco_order_lookup
      ∧ (on_order_update st data ok).state.order_events
          = st.order_events
            ++ [⟨rawOrderId fs, "Unknown(None)", rawCustomTag fs, PyVal.int 0⟩])
    ∧ (∀ (st : OCOState) (data : PyVal) (ok : Bool),
        (∀ fs, pyNormalizeOrderData data ≠ PyVal.dict fs) →
        (on_order_update st data ok).err = some PyErr.attributeError
        ∧ (on_order_update st data ok).state = st
        ∧ (on_order_update st data ok).calls = []) := by
  constructor
  · intro st data ok fs hnorm hst hfv
    unfold on_order_update
    repeat' split
    all_goals simp_all [rawFilledSize, pyGtZero, logEvent, decode_order_status]
    all_goals (subst_vars; rfl)
  · intro st data ok hnd
    unfold on_order_update
    split
    all_goals first
      | exact ⟨rfl, rfl, rfl⟩
      | (rename_i fs heq
         exact absurd heq (hnd fs))

theorem C9_witness :
    ((on_order_update emptyOCOState (PyVal.dict [("foo", PyVal.int 1)]) true).err = none
      ∧ (on_order_update emptyOCOState (PyVal.dict [("foo", PyVal.int 1)]) true).calls = []
      ∧ (on_order_update emptyOCOState (PyVal.dict [("foo", PyVal.int 1)]) true).state.oco_pairs
          = emptyOCOState.oco_pairs
      ∧ (on_order_update emptyOCOState
          (PyVal.dict [("foo", PyVal.int 1)]) true).state.oco_order_lookup
          = emptyOCOState.oco_order_lookup
      ∧ (on_order_update emptyOCOState (PyVal.dict [("foo", PyVal.int 1)]) true).state.order_events
          = emptyOCOState.order_events
            ++ [⟨rawOrderId [("foo", PyVal.int 1)], "Unknown(None)",
                rawCustomTag [("foo", PyVal.int 1)], PyVal.int 0⟩])
    ∧ ((on_order_update emptyOCOState (PyVal.int 5) true).err = some PyErr.attributeError
      ∧ (on_order_update emptyOCOState (PyVal.int 5) true).state = emptyOCOState
      ∧ (on_order_update emptyOCOState (PyVal.int 5) true).calls = []) :=
  ⟨C9_malformed_payloads.1 emptyOCOState (PyVal.dict [("foo", PyVal.int 1)]) true
      [("foo", PyVal.int 1)] rfl rfl rfl,
   C9_malformed_payloads.2 emptyOCOState (PyVal.int 5) true (fun fs h => PyVal.noConfusion h)⟩

/-- C5 counterexample: immediately after a fill transition — a point
reachable by one create_oco_order and one on_order_update call — the
bracket for entry 1 is in the completed stop_hit status, yet both of its
OrderLookupIndex entries are still present; the claimed invariant that no
lookup entry exists for a completed set at every point is false before
cleanup_completed_ocos runs. -/
theorem C5_counterexample :
    dictGet C5cState2.oco_pairs 1 = some C5cData
    ∧ ¬ C5cData.status = "active"
    ∧ (dictGet C5cState2.oco_order_lookup "2").isSome = true
    ∧ (dictGet C5cState2.oco_order_lookup "3").isSome = true :=
  ⟨rfl, by decide, rfl, rfl⟩

/-- C5 amended: in every reachable state of the OCO manager, every
Active bracket owns exactly two lookup entries — its stop and target legs
under distinct keys, and no other key maps to its entry id; entries of a
completed bracket may persist until cleanup runs, and any
cleanup_completed_ocos (or cleanup_orders) call removes every completed
bracket together with both of its lookup entries, so immediately after a
cleanup no completed set (and hence no entry of one) remains. -/
theorem C5_lookup_invariant (st : OCOState) (h : ReachableOCO st) :
    (∀ eid d, dictGet st.oco_pairs eid = some d → d.status = "active" →
      dictGet st.oco_order_lookup (toString d.stop_order_id)
          = some ⟨eid, "stop", toString d.target_order_id⟩
      ∧ dictGet st.oco_order_lookup (toString d.target_order_id)
          = some ⟨eid, "target", toString d.stop_order_id⟩
      ∧ toString d.stop_order_id ≠ toString d.target_order_id
      ∧ (∀ k info, dictGet st.oco_order_lookup k = some info → info.entry_id = eid →
          k = toString d.stop_order_id ∨ k = toString d.target_order_id))
    ∧ (∀ eid d, dictGet (cleanup_completed_ocos st).oco_pairs eid = some d →
        d.status = "active")
    ∧ (∀ eid d, dictGet st.oco_pairs eid = some d → ¬ d.status = "active" →
        dictGet (cleanup_completed_ocos st).oco_order_lookup (toString d.stop_order_id) = none
        ∧ dictGet (cleanup_completed_ocos st).oco_order_lookup (toString d.target_order_id)
            = none) := by
  obtain ⟨hnd, hfwd, hbwd⟩ := stateWF_reachable st h
  refine ⟨?_, ?_, ?_⟩
  · intro eid d hget hact
    obtain ⟨w1, w2, w3⟩ := hfwd eid d hget
    refine ⟨w1, w2, w3, ?_⟩
    intro k info hk he
    obtain ⟨d2, hd2, hcond⟩ := hbwd k info hk
    rw [he, hget] at hd2
    injection hd2 with e
    subst e
    rcases hcond with ⟨e, _, _⟩ | ⟨e, _, _⟩
    · exact Or.inl e
    · exact Or.inr e
  · exact fun eid d hg => cleanup_pairs_active st eid d hg
  · exact fun eid d hg hna => cleanup_lookup_removed st eid d hg hna

theorem C5_witness :
    dictGet C5wState.oco_order_lookup (toString C5wData.stop_order_id)
        = some ⟨4, "stop", toString C5wData.target_order_id⟩
    ∧ dictGet C5wState.oco_order_lookup (toString C5wData.target_order_id)
        = some ⟨4, "target", toString C5wData.stop_order_id⟩ := by
  have hreach : ReachableOCO C5wState :=
    ReachableOCO.create emptyOCOState 6 6 "C" 0 1 (some 100) (some 4) (some 5) (some 6)
      ReachableOCO.init
      (fun p eid sid tid hp he hs ht => by
        injection he with he
        injection hs with hs
        injection ht with ht
        subst he
        subst hs
        subst ht
        exact ⟨rfl, rfl, rfl, by decide⟩)
  have happ := (C5_lookup_invariant C5wState hreach).1 4 C5wData rfl rfl
  exact ⟨happ.1, happ.2.1⟩
